import Mathlib

/-!
Verification of the TTF text-rasterization cache subsystem
(src/openrct2/drawing/TTF.cpp): two fixed-capacity open-addressed caches
memoizing rendered glyph surfaces and measured text widths, keyed by a
(font, text) pair, with a shared hash function, linear probing, a
64-tick staleness replacement rule and hit/miss counters.

Shallow embedding conventions:
  - a font handle (TTF_Font pointer) is an opaque identity, modelled as a Nat;
  - a text (NUL-terminated utf8 string) is modelled as the list of its
    bytes before the terminator; strcmp-equality is list equality and
    _strdup produces the same list (value semantics);
  - a rendered surface (TTFSurface pointer) is an opaque identity Nat;
  - uint32_t arithmetic is Nat arithmetic with explicit reductions mod 2 ^ 32;
  - the int32_t diagnostic counters are modelled as Int (their values stay
    far from the int32 range in any execution considered here);
  - a cache slot is an Option: none models the empty slot (surface == NULL
    for the surface cache, text == NULL for the width cache; the C code
    clears all fields of a slot together, so one Option is faithful);
  - the external font engine (render / measure), the localisation service
    and the global draw-count tick are parameters supplied by the caller,
    matching the code reading the globals gCurrentDrawCount etc.
-/

namespace TTF

/-- Size of the surface cache, TTF_SURFACE_CACHE_SIZE in TTF.cpp. -/
def TTF_SURFACE_CACHE_SIZE : Nat := 256

/-- Size of the width cache, TTF_GETWIDTH_CACHE_SIZE in TTF.cpp. -/
def TTF_GETWIDTH_CACHE_SIZE : Nat := 1024

/-- Modelled from the spec: the 32-bit rotate-right helper ror32 used by
ttf_surface_cache_hash comes from a shared numerics header that is not under
src/; the spec describes the fold step as rotating the accumulator right by
n bits on 32 bits. For x < 2 ^ 32 this arithmetic form is that rotation:
the low n bits move to the top, the rest shift down. -/
def ror32 (x n : Nat) : Nat := x / 2 ^ n + x % 2 ^ n * 2 ^ (32 - n)

/-- ttf_surface_cache_hash: seed from the font identity (times 23, in
uintptr_t i.e. mod 2 ^ 64, XOR 0xAAAAAAAA, masked to 32 bits), then fold
each text byte: rotate right 3, XOR the byte times 13. -/
def ttf_surface_cache_hash (font : Nat) (text : List Nat) : Nat :=
  text.foldl (fun hash ch => ror32 hash 3 ^^^ ch * 13)
    ((font * 23 % 2 ^ 64 ^^^ 0xAAAAAAAA) &&& 0xFFFFFFFF)

/-- A non-empty cache slot. For the surface cache, value is the surface
identity (ttf_cache_entry.surface); for the width cache it is the cached
width (ttf_getwidth_cache_entry.width). Both C structs otherwise hold the
borrowed font pointer, the owned text copy and lastUseTick. -/
structure CacheEntry where
  value : Nat
  font : Nat
  text : List Nat
  lastUseTick : Nat
deriving DecidableEq

/-- One cache table with its diagnostic counters: models the global
quadruple (_ttfSurfaceCache, _ttfSurfaceCacheCount, _ttfSurfaceCacheHitCount,
_ttfSurfaceCacheMissCount) and likewise for the width cache. Slots at
indices at or above the table size are never touched and stay none. -/
structure CacheState where
  table : Nat → Option CacheEntry
  count : Int
  hitCount : Int
  missCount : Int

/-- Pointwise update of a table at one index. -/
def upd (tbl : Nat → Option CacheEntry) (i : Nat) (v : Option CacheEntry) :
    Nat → Option CacheEntry :=
  fun j => if j = i then v else tbl j

/-- The unsigned 32-bit value of gCurrentDrawCount - 64: for tick < 2 ^ 32
this is the uint32 subtraction, wrapping when tick < 64. -/
def staleThreshold (tick : Nat) : Nat := (tick + (2 ^ 32 - 64)) % 2 ^ 32

/-- Outcome of the probe loop: a hit at an index holding the matching
entry, or a miss leaving the insertion/eviction index. -/
inductive ProbeResult where
  | hit (index : Nat) (entry : CacheEntry)
  | miss (index : Nat)
deriving DecidableEq

/-- The probe loop body shared by ttf_surface_cache_get_or_add and
ttf_getwidth_cache_get_or_add (both C loops are textually identical up to
the entry struct): at each index, an empty slot breaks (miss there), a
slot with identical font and equal text is a hit, a slot with lastUseTick
older than tick - 64 (in uint32 arithmetic) breaks (miss there), otherwise
the index advances by one wrapping past the table size. The fuel is the
loop counter bound i < N; when it runs out the index has been incremented
N times, wrapping back to its starting point. -/
def probeLoop (tbl : Nat → Option CacheEntry) (N font : Nat) (text : List Nat)
    (tick : Nat) : Nat → Nat → ProbeResult
  | 0, index => .miss index
  | fuel + 1, index =>
    match tbl index with
    | none => .miss index
    | some e =>
      if e.font = font ∧ e.text = text then .hit index e
      else if e.lastUseTick < staleThreshold tick then .miss index
      else probeLoop tbl N font text tick fuel ((index + 1) % N)

/-- A full probe starting at the home slot hash mod N with N iterations. -/
def cacheProbe (tbl : Nat → Option CacheEntry) (N font : Nat) (text : List Nat)
    (tick : Nat) : ProbeResult :=
  probeLoop tbl N font text tick N (ttf_surface_cache_hash font text % N)

/-- Result of one get-or-add call: the returned value (none models the
NULL return on render failure), the new global state, and how many times
the external capability (render or measure) was invoked. -/
structure CacheCallResult where
  result : Option Nat
  state : CacheState
  produceCalls : Nat

/-- Common body of the two get_or_add functions. On a hit, bump the hit
counter, stamp lastUseTick and return the stored value. On a miss, dispose
the target slot (clearing it), invoke the producer once; on failure return
none leaving the slot empty and counters untouched; on success bump the
miss and occupancy counters and fill the slot with the value, the borrowed
font, the copied text and the current tick. -/
def cache_get_or_add (N : Nat) (produce : Nat → List Nat → Option Nat)
    (st : CacheState) (font : Nat) (text : List Nat) (tick : Nat) :
    CacheCallResult :=
  match cacheProbe st.table N font text tick with
  | .hit index e =>
    { result := some e.value
      state := { st with
        table := upd st.table index (some { e with lastUseTick := tick })
        hitCount := st.hitCount + 1 }
      produceCalls := 0 }
  | .miss index =>
    let disposed := upd st.table index none
    match produce font text with
    | none =>
      { result := none
        state := { st with table := disposed }
        produceCalls := 1 }
    | some v =>
      { result := some v
        state := { st with
          table := upd disposed index (some ⟨v, font, text, tick⟩)
          count := st.count + 1
          missCount := st.missCount + 1 }
        produceCalls := 1 }

/-- ttf_surface_cache_get_or_add: the render capability may fail
(TTF_RenderUTF8 returning NULL), modelled by an Option-valued producer. -/
def ttf_surface_cache_get_or_add (render : Nat → List Nat → Option Nat)
    (st : CacheState) (font : Nat) (text : List Nat) (tick : Nat) :
    CacheCallResult :=
  cache_get_or_add TTF_SURFACE_CACHE_SIZE render st font text tick

/-- ttf_getwidth_cache_get_or_add: the measured width is always stored
(the code ignores the return of ttf_get_size), so the producer is total. -/
def ttf_getwidth_cache_get_or_add (measure : Nat → List Nat → Nat)
    (st : CacheState) (font : Nat) (text : List Nat) (tick : Nat) :
    CacheCallResult :=
  cache_get_or_add TTF_GETWIDTH_CACHE_SIZE (fun f t => some (measure f t))
    st font text tick

/-- Common body of the two dispose_all functions: every slot below the
table size is disposed (reset to empty, releasing its resources), and the
occupancy counter is decremented once per loop iteration, i.e. by the full
table size, occupied or not. -/
def cache_dispose_all (N : Nat) (st : CacheState) : CacheState :=
  { st with
    table := fun i => if i < N then none else st.table i
    count := st.count - N }

/-- ttf_surface_cache_dispose_all. -/
def ttf_surface_cache_dispose_all (st : CacheState) : CacheState :=
  cache_dispose_all TTF_SURFACE_CACHE_SIZE st

/-- ttf_getwidth_cache_dispose_all. -/
def ttf_getwidth_cache_dispose_all (st : CacheState) : CacheState :=
  cache_dispose_all TTF_GETWIDTH_CACHE_SIZE st

/-- The whole cache subsystem state: both tables and the per-size-class
hinting flags of the loaded fonts (TTF_SetFontHinting state). -/
structure TTFState where
  surface : CacheState
  width : CacheState
  hinting : Nat → Bool

/-- ttf_toggle_hinting: if the localisation service does not report a
TrueType font in use, return at once. Otherwise re-apply the configured
hinting to each of the fontSizeCount size classes, then dispose the whole
surface cache if (and only if) its occupancy counter is non-zero. The
width cache is never touched. useTrueTypeFont models the external
LocalisationService_UseTrueTypeFont() and desiredHinting the per-class
value of gConfigFonts.enable_hinting && fontDesc->hinting_threshold. -/
def ttf_toggle_hinting (fontSizeCount : Nat) (useTrueTypeFont : Bool)
    (desiredHinting : Nat → Bool) (st : TTFState) : TTFState :=
  if useTrueTypeFont = false then st
  else
    let st1 : TTFState :=
      { st with hinting := fun i =>
          if i < fontSizeCount then desiredHinting i else st.hinting i }
    if st1.surface.count ≠ 0 then
      { st1 with surface := ttf_surface_cache_dispose_all st1.surface }
    else st1

/-- The all-empty table with zeroed counters: the static initialisation of
the cache globals. -/
def emptyCacheState : CacheState :=
  { table := fun _ => none, count := 0, hitCount := 0, missCount := 0 }

/-- Subsystem state at startup. -/
def ttfInitialState : TTFState :=
  { surface := emptyCacheState, width := emptyCacheState,
    hinting := fun _ => false }

/-- Effect of one surface-cache get-or-add call on the subsystem state. -/
def surfaceStep (render : Nat → List Nat → Option Nat) (st : TTFState)
    (font : Nat) (text : List Nat) (tick : Nat) : TTFState :=
  { st with
    surface := (ttf_surface_cache_get_or_add render st.surface font text tick).state }

/-- Effect of one width-cache get-or-add call on the subsystem state. -/
def widthStep (measure : Nat → List Nat → Nat) (st : TTFState)
    (font : Nat) (text : List Nat) (tick : Nat) : TTFState :=
  { st with
    width := (ttf_getwidth_cache_get_or_add measure st.width font text tick).state }

/-- Effect of ttf_surface_cache_dispose_all on the subsystem state. -/
def surfaceDisposeStep (st : TTFState) : TTFState :=
  { st with surface := ttf_surface_cache_dispose_all st.surface }

/-- Effect of ttf_getwidth_cache_dispose_all on the subsystem state. -/
def widthDisposeStep (st : TTFState) : TTFState :=
  { st with width := ttf_getwidth_cache_dispose_all st.width }

/-- States reachable from startup by any sequence of get-or-add and
dispose-all operations, at arbitrary ticks and with arbitrary outcomes of
the external render and measure capabilities. -/
inductive Reachable : TTFState → Prop
  | init : Reachable ttfInitialState
  | surface (render : Nat → List Nat → Option Nat) (st : TTFState)
      (font : Nat) (text : List Nat) (tick : Nat) :
      Reachable st → Reachable (surfaceStep render st font text tick)
  | width (measure : Nat → List Nat → Nat) (st : TTFState)
      (font : Nat) (text : List Nat) (tick : Nat) :
      Reachable st → Reachable (widthStep measure st font text tick)
  | surfaceDispose (st : TTFState) :
      Reachable st → Reachable (surfaceDisposeStep st)
  | widthDispose (st : TTFState) :
      Reachable st → Reachable (widthDisposeStep st)

/-- States reachable from startup when every operation happens at one
fixed tick T and every surface render succeeds. -/
inductive ReachableAt (T : Nat) : TTFState → Prop
  | init : ReachableAt T ttfInitialState
  | surface (render : Nat → List Nat → Option Nat) (st : TTFState)
      (font : Nat) (text : List Nat) :
      render font text ≠ none →
      ReachableAt T st → ReachableAt T (surfaceStep render st font text T)
  | width (measure : Nat → List Nat → Nat) (st : TTFState)
      (font : Nat) (text : List Nat) :
      ReachableAt T st → ReachableAt T (widthStep measure st font text T)
  | surfaceDispose (st : TTFState) :
      ReachableAt T st → ReachableAt T (surfaceDisposeStep st)
  | widthDispose (st : TTFState) :
      ReachableAt T st → ReachableAt T (widthDisposeStep st)

/-- Home slot of a key in a table of N slots. -/
def homeSlot (N font : Nat) (text : List Nat) : Nat :=
  ttf_surface_cache_hash font text % N

/-- A slot the probe walks through: occupied, not matching the query key,
and not stale. -/
def GoSlot (tbl : Nat → Option CacheEntry) (font : Nat) (text : List Nat)
    (tick i : Nat) : Prop :=
  ∃ e, tbl i = some e ∧ ¬(e.font = font ∧ e.text = text) ∧
    ¬ e.lastUseTick < staleThreshold tick

/-- No two occupied slots of a table of N slots hold the same key. -/
def NoDupKeys (N : Nat) (tbl : Nat → Option CacheEntry) : Prop :=
  ∀ i j e e', i < N → j < N → tbl i = some e → tbl j = some e' →
    e.font = e'.font → e.text = e'.text → i = j

/-- A render oracle that always produces the surface identity 1. -/
def constRender : Nat → List Nat → Option Nat := fun _ _ => some 1

/-- Concrete state exercising the hinting toggle: the key (font 0, byte-1
text) is cached in both tables (surface home slot 88, width home slot 344)
and fresh at tick 70, the width occupancy counter is 1, but the surface
occupancy counter is 0. Such counter-versus-occupancy mismatches are
reachable because dispose_all moves the counter by the full table size
regardless of occupancy. -/
def hintingToggleState : TTFState :=
  { surface :=
      { table := upd emptyCacheState.table 88 (some ⟨7, 0, [1], 70⟩)
        count := 0
        hitCount := 0
        missCount := 0 }
    width :=
      { table := upd emptyCacheState.table 344 (some ⟨12, 0, [1], 70⟩)
        count := 1
        hitCount := 0
        missCount := 0 }
    hinting := fun _ => false }

/-- Three surface-cache operations from startup: insert (font 0, byte 1)
at tick 64 (home slot 88); insert (font 0, bytes 2 117) at tick 64 (the
same home slot 88, so it lands at slot 89 past the fresh occupied 88);
query (font 0, bytes 2 117) again at tick 129, when slot 88 tests stale:
the probe stops at 88 and re-inserts the key there while the old copy
stays live at 89. -/
def dupKeyState : TTFState :=
  surfaceStep constRender
    (surfaceStep constRender
      (surfaceStep constRender ttfInitialState 0 [1] 64)
      0 [2, 117] 64)
    0 [2, 117] 129

/-- A surface table with all 256 slots occupied by one fresh entry for the
key (font 0, byte 1) stamped at tick 100. -/
def fullFreshTable : Nat → Option CacheEntry :=
  fun i => if i < 256 then some ⟨1, 0, [1], 100⟩ else none

/-- The surface cache holding exactly one entry: the result of inserting
(font 0, byte-1 text) at tick 70 into the empty cache. -/
def oneEntryState : CacheState :=
  (ttf_surface_cache_get_or_add (fun _ _ => some 5) emptyCacheState 0 [1] 70).state

/-- Like hintingToggleState but with the surface occupancy counter 1, in
agreement with its single live entry. -/
def bothCachedState : TTFState :=
  { hintingToggleState with
    surface := { hintingToggleState.surface with count := 1 } }

end TTF

namespace TTF

theorem homeSlot_lt (N font : Nat) (text : List Nat) (hN : 0 < N) :
    homeSlot N font text < N :=
  Nat.mod_lt _ hN

theorem shift_index (N idx j : Nat) :
    ((idx + 1) % N + j) % N = (idx + (j + 1)) % N := by
  rw [Nat.mod_add_mod]
  congr 1
  omega

theorem probeLoop_zero (tbl : Nat → Option CacheEntry) (N font : Nat)
    (text : List Nat) (tick idx : Nat) :
    probeLoop tbl N font text tick 0 idx = .miss idx := rfl

theorem probeLoop_succ (tbl : Nat → Option CacheEntry) (N font : Nat)
    (text : List Nat) (tick fuel idx : Nat) :
    probeLoop tbl N font text tick (fuel + 1) idx =
      match tbl idx with
      | none => .miss idx
      | some e =>
        if e.font = font ∧ e.text = text then .hit idx e
        else if e.lastUseTick < staleThreshold tick then .miss idx
        else probeLoop tbl N font text tick fuel ((idx + 1) % N) := rfl

theorem probeLoop_miss_lt (tbl : Nat → Option CacheEntry) (N font : Nat)
    (text : List Nat) (tick : Nat) (hN : 0 < N) :
    ∀ (fuel idx i : Nat), idx < N →
      probeLoop tbl N font text tick fuel idx = .miss i → i < N := by
  intro fuel
  induction fuel with
  | zero =>
    intro idx i hidx h
    rw [probeLoop_zero] at h
    cases h
    exact hidx
  | succ fuel ih =>
    intro idx i hidx h
    rw [probeLoop_succ] at h
    split at h
    · cases h; exact hidx
    · split at h
      · cases h
      · split at h
        · cases h; exact hidx
        · exact ih ((idx + 1) % N) i (Nat.mod_lt _ hN) h

theorem probeLoop_hit_sound (tbl : Nat → Option CacheEntry) (N font : Nat)
    (text : List Nat) (tick : Nat) :
    ∀ (fuel idx i : Nat) (e : CacheEntry),
      probeLoop tbl N font text tick fuel idx = .hit i e →
      tbl i = some e ∧ e.font = font ∧ e.text = text := by
  intro fuel
  induction fuel with
  | zero =>
    intro idx i e h
    rw [probeLoop_zero] at h
    cases h
  | succ fuel ih =>
    intro idx i e h
    rw [probeLoop_succ] at h
    split at h
    · cases h
    · next e0 htbl =>
        split at h
        · next hm => cases h; exact ⟨htbl, hm⟩
        · split at h
          · cases h
          · exact ih ((idx + 1) % N) i e h

theorem probeLoop_hit_lt (tbl : Nat → Option CacheEntry) (N font : Nat)
    (text : List Nat) (tick : Nat) (hN : 0 < N) :
    ∀ (fuel idx i : Nat) (e : CacheEntry), idx < N →
      probeLoop tbl N font text tick fuel idx = .hit i e → i < N := by
  intro fuel
  induction fuel with
  | zero =>
    intro idx i e hidx h
    rw [probeLoop_zero] at h
    cases h
  | succ fuel ih =>
    intro idx i e hidx h
    rw [probeLoop_succ] at h
    split at h
    · cases h
    · split at h
      · cases h; exact hidx
      · split at h
        · cases h
        · exact ih ((idx + 1) % N) i e (Nat.mod_lt _ hN) h

end TTF

namespace TTF

theorem probeLoop_empty_step (tbl : Nat → Option CacheEntry) (N font : Nat)
    (text : List Nat) (tick fuel idx : Nat) (he : tbl idx = none) :
    probeLoop tbl N font text tick (fuel + 1) idx = .miss idx := by
  rw [probeLoop_succ]
  split
  · rfl
  · next e0 h0 => rw [h0] at he; cases he

theorem probeLoop_match_step (tbl : Nat → Option CacheEntry) (N font : Nat)
    (text : List Nat) (tick fuel idx : Nat) (e : CacheEntry)
    (he : tbl idx = some e) (hm : e.font = font ∧ e.text = text) :
    probeLoop tbl N font text tick (fuel + 1) idx = .hit idx e := by
  rw [probeLoop_succ]
  split
  · next h0 => rw [h0] at he; cases he
  · next e0 h0 =>
      rw [h0] at he
      cases he
      rw [if_pos hm]

theorem probeLoop_stale_step (tbl : Nat → Option CacheEntry) (N font : Nat)
    (text : List Nat) (tick fuel idx : Nat) (e : CacheEntry)
    (he : tbl idx = some e) (hm : ¬(e.font = font ∧ e.text = text))
    (hs : e.lastUseTick < staleThreshold tick) :
    probeLoop tbl N font text tick (fuel + 1) idx = .miss idx := by
  rw [probeLoop_succ]
  split
  · rfl
  · next e0 h0 =>
      rw [h0] at he
      cases he
      rw [if_neg hm, if_pos hs]

theorem probeLoop_go_step (tbl : Nat → Option CacheEntry) (N font : Nat)
    (text : List Nat) (tick fuel idx : Nat) (e : CacheEntry)
    (he : tbl idx = some e) (hm : ¬(e.font = font ∧ e.text = text))
    (hs : ¬ e.lastUseTick < staleThreshold tick) :
    probeLoop tbl N font text tick (fuel + 1) idx =
      probeLoop tbl N font text tick fuel ((idx + 1) % N) := by
  rw [probeLoop_succ]
  split
  · next h0 => rw [h0] at he; cases he
  · next e0 h0 =>
      rw [h0] at he
      cases he
      rw [if_neg hm, if_neg hs]

theorem probeLoop_reaches (tbl : Nat → Option CacheEntry) (N font : Nat)
    (text : List Nat) (tick : Nat) (hN : 0 < N) :
    ∀ (j fuel idx : Nat), idx < N → j ≤ fuel →
      (∀ k, k < j → GoSlot tbl font text tick ((idx + k) % N)) →
      probeLoop tbl N font text tick fuel idx =
        probeLoop tbl N font text tick (fuel - j) ((idx + j) % N) := by
  intro j
  induction j with
  | zero =>
    intro fuel idx hidx _ _
    rw [Nat.sub_zero, Nat.add_zero, Nat.mod_eq_of_lt hidx]
  | succ j ih =>
    intro fuel idx hidx hj hgo
    obtain ⟨fuel', rfl⟩ : ∃ f, fuel = f + 1 := ⟨fuel - 1, by omega⟩
    obtain ⟨e, he, hm, hs⟩ := hgo 0 (Nat.succ_pos j)
    rw [Nat.add_zero, Nat.mod_eq_of_lt hidx] at he
    rw [probeLoop_go_step tbl N font text tick fuel' idx e he hm hs]
    have step := ih fuel' ((idx + 1) % N) (Nat.mod_lt _ hN) (by omega)
      (fun k hk => by rw [shift_index]; exact hgo (k + 1) (by omega))
    rw [step, shift_index]
    congr 1
    omega

theorem probeLoop_miss_char (tbl : Nat → Option CacheEntry) (N font : Nat)
    (text : List Nat) (tick : Nat) (hN : 0 < N)
    (noStale : ∀ i e, tbl i = some e → ¬ e.lastUseTick < staleThreshold tick) :
    ∀ (fuel idx i : Nat), idx < N →
      probeLoop tbl N font text tick fuel idx = .miss i →
      ∃ j, j ≤ fuel ∧ i = (idx + j) % N ∧
        (∀ k, k < j → ∃ e, tbl ((idx + k) % N) = some e ∧
          ¬(e.font = font ∧ e.text = text)) ∧
        (j < fuel → tbl i = none) := by
  intro fuel
  induction fuel with
  | zero =>
    intro idx i hidx h
    rw [probeLoop_zero] at h
    cases h
    exact ⟨0, Nat.le_refl 0, by rw [Nat.add_zero, Nat.mod_eq_of_lt hidx],
      fun k hk => absurd hk (Nat.not_lt_zero k),
      fun h0 => absurd h0 (Nat.lt_irrefl 0)⟩
  | succ fuel ih =>
    intro idx i hidx h
    cases he : tbl idx with
    | none =>
      rw [probeLoop_empty_step tbl N font text tick fuel idx he] at h
      cases h
      exact ⟨0, Nat.zero_le _, by rw [Nat.add_zero, Nat.mod_eq_of_lt hidx],
        fun k hk => absurd hk (Nat.not_lt_zero k), fun _ => he⟩
    | some e =>
      by_cases hm : e.font = font ∧ e.text = text
      · rw [probeLoop_match_step tbl N font text tick fuel idx e he hm] at h
        cases h
      · have hs := noStale idx e he
        rw [probeLoop_go_step tbl N font text tick fuel idx e he hm hs] at h
        obtain ⟨j, hj, hi, hpre, hemp⟩ := ih ((idx + 1) % N) i (Nat.mod_lt _ hN) h
        refine ⟨j + 1, by omega, by rw [← shift_index]; exact hi, ?_, ?_⟩
        · intro k hk
          cases k with
          | zero =>
            exact ⟨e, by rw [Nat.add_zero, Nat.mod_eq_of_lt hidx]; exact he, hm⟩
          | succ k =>
            rw [← shift_index]
            exact hpre k (by omega)
        · intro hlt
          exact hemp (by omega)

theorem probeLoop_hit_of_match_on_path (tbl : Nat → Option CacheEntry)
    (N font : Nat) (text : List Nat) (tick : Nat) (hN : 0 < N)
    (noStale : ∀ i e, tbl i = some e → ¬ e.lastUseTick < staleThreshold tick) :
    ∀ (d fuel idx : Nat) (e : CacheEntry), idx < N → d < fuel →
      tbl ((idx + d) % N) = some e → e.font = font → e.text = text →
      (∀ k, k < d → tbl ((idx + k) % N) ≠ none) →
      ∃ i' e', probeLoop tbl N font text tick fuel idx = .hit i' e' := by
  intro d
  induction d with
  | zero =>
    intro fuel idx e hidx hd he hf ht _
    obtain ⟨fuel', rfl⟩ : ∃ f, fuel = f + 1 := ⟨fuel - 1, by omega⟩
    rw [Nat.add_zero, Nat.mod_eq_of_lt hidx] at he
    exact ⟨idx, e, probeLoop_match_step tbl N font text tick fuel' idx e he ⟨hf, ht⟩⟩
  | succ d ih =>
    intro fuel idx e hidx hd he hf ht hocc
    obtain ⟨fuel', rfl⟩ : ∃ f, fuel = f + 1 := ⟨fuel - 1, by omega⟩
    have h0 : tbl ((idx + 0) % N) ≠ none := hocc 0 (Nat.succ_pos d)
    rw [Nat.add_zero, Nat.mod_eq_of_lt hidx] at h0
    cases he0 : tbl idx with
    | none => exact absurd he0 h0
    | some e0 =>
      by_cases hm : e0.font = font ∧ e0.text = text
      · exact ⟨idx, e0, probeLoop_match_step tbl N font text tick fuel' idx e0 he0 hm⟩
      · rw [probeLoop_go_step tbl N font text tick fuel' idx e0 he0 hm (noStale idx e0 he0)]
        refine ih fuel' ((idx + 1) % N) e (Nat.mod_lt _ hN) (by omega) ?_ hf ht ?_
        · rw [shift_index]
          exact he
        · intro k hk
          rw [shift_index]
          exact hocc (k + 1) (by omega)

end TTF

namespace TTF

theorem upd_self (tbl : Nat → Option CacheEntry) (i : Nat) (v : Option CacheEntry) :
    upd tbl i v i = v := by
  simp [upd]

theorem upd_other (tbl : Nat → Option CacheEntry) (i : Nat) (v : Option CacheEntry)
    (j : Nat) (h : j ≠ i) : upd tbl i v j = tbl j := by
  simp [upd, h]

theorem upd_upd_self (tbl : Nat → Option CacheEntry) (i : Nat)
    (a b : Option CacheEntry) : upd (upd tbl i a) i b = upd tbl i b := by
  funext j
  by_cases h : j = i <;> simp [upd, h]

theorem dist_offset (N home j : Nat) (hh : home < N) (hj : j < N) :
    ((home + j) % N + N - home) % N = j := by
  rcases Nat.lt_or_ge (home + j) N with h | h
  · rw [Nat.mod_eq_of_lt h]
    have h2 : home + j + N - home = j + N := by omega
    rw [h2, Nat.add_mod_right]
    exact Nat.mod_eq_of_lt hj
  · rw [Nat.mod_eq_sub_mod h, Nat.mod_eq_of_lt (by omega : home + j - N < N)]
    have h2 : home + j - N + N - home = j := by omega
    rw [h2]
    exact Nat.mod_eq_of_lt hj

theorem offset_dist (N home p : Nat) (hh : home < N) (hp : p < N) :
    (home + (p + N - home) % N) % N = p := by
  conv_lhs => rw [Nat.add_comm home]
  rw [Nat.mod_add_mod, Nat.add_comm]
  have h2 : home + (p + N - home) = p + N := by omega
  rw [h2, Nat.add_mod_right]
  exact Nat.mod_eq_of_lt hp

theorem path_inj (N home k j : Nat) (hh : home < N) (hk : k < N) (hj : j < N)
    (h : (home + k) % N = (home + j) % N) : k = j := by
  have h1 := dist_offset N home k hh hk
  have h2 := dist_offset N home j hh hj
  rw [h] at h1
  omega

theorem offset_wrap (N home : Nat) (hh : home < N) : (home + N) % N = home := by
  rw [Nat.add_mod_right]
  exact Nat.mod_eq_of_lt hh

theorem staleThreshold_eq (T : Nat) (h64 : 64 ≤ T) (hlt : T < 2 ^ 32) :
    staleThreshold T = T - 64 := by
  unfold staleThreshold
  have h1 : T + (2 ^ 32 - 64) = T - 64 + 2 ^ 32 := by omega
  rw [h1, Nat.add_mod_right]
  exact Nat.mod_eq_of_lt (by omega)

theorem staleThreshold_wrap (T : Nat) (h : T < 64) :
    staleThreshold T = T + (2 ^ 32 - 64) := by
  unfold staleThreshold
  exact Nat.mod_eq_of_lt (by omega)

end TTF

namespace TTF

/-- Inductive invariant for one table of N slots when every operation so
far ran at the single tick T: no entry at or beyond index N, every entry
stamped T, every occupied slot reachable from its key's home slot without
crossing an empty slot, and no duplicated keys. -/
def Inv (N T : Nat) (tbl : Nat → Option CacheEntry) : Prop :=
  (∀ i, N ≤ i → tbl i = none) ∧
  (∀ i e, tbl i = some e → e.lastUseTick = T) ∧
  (∀ i e, tbl i = some e →
    ∀ k, k < (i + N - homeSlot N e.font e.text) % N →
      tbl ((homeSlot N e.font e.text + k) % N) ≠ none) ∧
  NoDupKeys N tbl

theorem noStale_of_ticks (T : Nat) (tbl : Nat → Option CacheEntry)
    (h64 : 64 ≤ T) (hlt : T < 2 ^ 32)
    (hticks : ∀ i e, tbl i = some e → e.lastUseTick = T) :
    ∀ i e, tbl i = some e → ¬ e.lastUseTick < staleThreshold T := by
  intro i e he
  rw [hticks i e he, staleThreshold_eq T h64 hlt]
  omega

theorem miss_key_absent (N T font : Nat) (text : List Nat)
    (tbl : Nat → Option CacheEntry) (hN : 0 < N)
    (hInv : Inv N T tbl) (h64 : 64 ≤ T) (hlt : T < 2 ^ 32) (i : Nat)
    (h : cacheProbe tbl N font text T = .miss i) :
    ∀ p e, tbl p = some e → ¬(e.font = font ∧ e.text = text) := by
  obtain ⟨hbey, hticks, hpath, _⟩ := hInv
  intro p e hp hm
  obtain ⟨hf, ht⟩ := hm
  have noStale := noStale_of_ticks T tbl h64 hlt hticks
  have hpN : p < N := by
    by_contra hge
    rw [hbey p (by omega)] at hp
    cases hp
  have hhlt : homeSlot N font text < N := homeSlot_lt N font text hN
  have hdlt : (p + N - homeSlot N font text) % N < N := Nat.mod_lt _ hN
  have hpd : (homeSlot N font text + (p + N - homeSlot N font text) % N) % N = p :=
    offset_dist N (homeSlot N font text) p hhlt hpN
  have hpath' := hpath p e hp
  rw [hf, ht] at hpath'
  have hmatch : tbl ((homeSlot N font text +
      (p + N - homeSlot N font text) % N) % N) = some e := by
    rw [hpd]
    exact hp
  obtain ⟨i', e', hhit⟩ := probeLoop_hit_of_match_on_path tbl N font text T hN
    noStale ((p + N - homeSlot N font text) % N) N (homeSlot N font text) e
    hhlt hdlt hmatch hf ht hpath'
  have h' : probeLoop tbl N font text T N (homeSlot N font text) = .miss i := h
  rw [hhit] at h'
  cases h'

theorem cacheProbe_miss_cases (N T font : Nat) (text : List Nat)
    (tbl : Nat → Option CacheEntry) (hN : 0 < N)
    (noStale : ∀ i e, tbl i = some e → ¬ e.lastUseTick < staleThreshold T)
    (i : Nat) (h : cacheProbe tbl N font text T = .miss i) :
    (∃ j, j < N ∧ i = (homeSlot N font text + j) % N ∧ tbl i = none ∧
      (∀ k, k < j → tbl ((homeSlot N font text + k) % N) ≠ none)) ∨
    (i = homeSlot N font text ∧
      ∀ k, k < N → tbl ((homeSlot N font text + k) % N) ≠ none) := by
  have h' : probeLoop tbl N font text T N (homeSlot N font text) = .miss i := h
  obtain ⟨j, hj, hi, hpre, hemp⟩ := probeLoop_miss_char tbl N font text T hN
    noStale N (homeSlot N font text) i (homeSlot_lt N font text hN) h'
  rcases Nat.lt_or_ge j N with hjlt | hge
  · left
    refine ⟨j, hjlt, hi, hemp hjlt, ?_⟩
    intro k hk
    obtain ⟨e, he, _⟩ := hpre k hk
    rw [he]
    intro hc
    cases hc
  · right
    have hjN : j = N := by omega
    rw [hjN] at hi hpre
    refine ⟨?_, ?_⟩
    · rw [hi, offset_wrap N _ (homeSlot_lt N font text hN)]
    · intro k hk
      obtain ⟨e, he, _⟩ := hpre k hk
      rw [he]
      intro hc
      cases hc

theorem cacheProbe_miss_lt (N T font : Nat) (text : List Nat)
    (tbl : Nat → Option CacheEntry) (hN : 0 < N) (i : Nat)
    (h : cacheProbe tbl N font text T = .miss i) : i < N :=
  probeLoop_miss_lt tbl N font text T hN N (homeSlot N font text) i
    (homeSlot_lt N font text hN) h

theorem cacheProbe_hit_sound (N T font : Nat) (text : List Nat)
    (tbl : Nat → Option CacheEntry) (i : Nat) (e : CacheEntry)
    (h : cacheProbe tbl N font text T = .hit i e) :
    tbl i = some e ∧ e.font = font ∧ e.text = text :=
  probeLoop_hit_sound tbl N font text T N (homeSlot N font text) i e h

theorem cacheProbe_hit_lt (N T font : Nat) (text : List Nat)
    (tbl : Nat → Option CacheEntry) (hN : 0 < N) (i : Nat) (e : CacheEntry)
    (h : cacheProbe tbl N font text T = .hit i e) : i < N :=
  probeLoop_hit_lt tbl N font text T hN N (homeSlot N font text) i e
    (homeSlot_lt N font text hN) h

theorem cache_get_or_add_hit_parts (N : Nat) (produce : Nat → List Nat → Option Nat)
    (st : CacheState) (font : Nat) (text : List Nat) (tick i : Nat) (e : CacheEntry)
    (h : cacheProbe st.table N font text tick = .hit i e) :
    (cache_get_or_add N produce st font text tick).result = some e.value ∧
    (cache_get_or_add N produce st font text tick).state.table =
      upd st.table i (some { e with lastUseTick := tick }) ∧
    (cache_get_or_add N produce st font text tick).state.count = st.count ∧
    (cache_get_or_add N produce st font text tick).state.hitCount = st.hitCount + 1 ∧
    (cache_get_or_add N produce st font text tick).state.missCount = st.missCount ∧
    (cache_get_or_add N produce st font text tick).produceCalls = 0 := by
  unfold cache_get_or_add
  rw [h]
  exact ⟨rfl, rfl, rfl, rfl, rfl, rfl⟩

theorem cache_get_or_add_miss_fail_parts (N : Nat)
    (produce : Nat → List Nat → Option Nat) (st : CacheState) (font : Nat)
    (text : List Nat) (tick i : Nat)
    (h : cacheProbe st.table N font text tick = .miss i)
    (hp : produce font text = none) :
    (cache_get_or_add N produce st font text tick).result = none ∧
    (cache_get_or_add N produce st font text tick).state.table =
      upd st.table i none ∧
    (cache_get_or_add N produce st font text tick).state.count = st.count ∧
    (cache_get_or_add N produce st font text tick).state.hitCount = st.hitCount ∧
    (cache_get_or_add N produce st font text tick).state.missCount = st.missCount ∧
    (cache_get_or_add N produce st font text tick).produceCalls = 1 := by
  unfold cache_get_or_add
  rw [h, hp]
  exact ⟨rfl, rfl, rfl, rfl, rfl, rfl⟩

theorem cache_get_or_add_miss_succ_parts (N : Nat)
    (produce : Nat → List Nat → Option Nat) (st : CacheState) (font : Nat)
    (text : List Nat) (tick i : Nat) (v : Nat)
    (h : cacheProbe st.table N font text tick = .miss i)
    (hp : produce font text = some v) :
    (cache_get_or_add N produce st font text tick).result = some v ∧
    (cache_get_or_add N produce st font text tick).state.table =
      upd st.table i (some ⟨v, font, text, tick⟩) ∧
    (cache_get_or_add N produce st font text tick).state.count = st.count + 1 ∧
    (cache_get_or_add N produce st font text tick).state.hitCount = st.hitCount ∧
    (cache_get_or_add N produce st font text tick).state.missCount = st.missCount + 1 ∧
    (cache_get_or_add N produce st font text tick).produceCalls = 1 := by
  unfold cache_get_or_add
  rw [h, hp]
  exact ⟨rfl, upd_upd_self st.table i none (some ⟨v, font, text, tick⟩),
    rfl, rfl, rfl, rfl⟩

end TTF

namespace TTF

theorem inv_upd_stamp (N T : Nat) (tbl : Nat → Option CacheEntry) (i : Nat)
    (e : CacheEntry) (hiN : i < N) (he : tbl i = some e) (hInv : Inv N T tbl) :
    Inv N T (upd tbl i (some { e with lastUseTick := T })) := by
  obtain ⟨hbey, hticks, hpath, hdup⟩ := hInv
  have hne : ∀ x, tbl x ≠ none →
      upd tbl i (some { e with lastUseTick := T }) x ≠ none := by
    intro x hx
    by_cases hxi : x = i
    · subst hxi
      rw [upd_self]
      intro hc
      cases hc
    · rw [upd_other tbl i _ x hxi]
      exact hx
  refine ⟨?_, ?_, ?_, ?_⟩
  · intro p hp
    rw [upd_other tbl i _ p (by omega)]
    exact hbey p hp
  · intro p e1 hp
    by_cases hpi : p = i
    · subst hpi
      rw [upd_self] at hp
      cases hp
      rfl
    · rw [upd_other tbl i _ p hpi] at hp
      exact hticks p e1 hp
  · intro p e1 hp k hk
    by_cases hpi : p = i
    · subst hpi
      rw [upd_self] at hp
      cases hp
      exact hne _ (hpath p e he k hk)
    · rw [upd_other tbl i _ p hpi] at hp
      exact hne _ (hpath p e1 hp k hk)
  · intro p q e1 e2 hpN hqN hp hq hf ht
    by_cases hpi : p = i <;> by_cases hqi : q = i
    · rw [hpi, hqi]
    · subst hpi
      rw [upd_self] at hp
      cases hp
      rw [upd_other tbl p _ q hqi] at hq
      exact hdup p q e e2 hpN hqN he hq hf ht
    · subst hqi
      rw [upd_self] at hq
      cases hq
      rw [upd_other tbl q _ p hpi] at hp
      exact hdup p q e1 e hpN hqN hp he hf ht
    · rw [upd_other tbl i _ p hpi] at hp
      rw [upd_other tbl i _ q hqi] at hq
      exact hdup p q e1 e2 hpN hqN hp hq hf ht

theorem inv_insert (N T font : Nat) (text : List Nat) (v : Nat)
    (tbl : Nat → Option CacheEntry) (hN : 0 < N) (h64 : 64 ≤ T)
    (hlt : T < 2 ^ 32) (hInv : Inv N T tbl) (i : Nat)
    (h : cacheProbe tbl N font text T = .miss i) :
    Inv N T (upd tbl i (some ⟨v, font, text, T⟩)) := by
  have hiN : i < N := cacheProbe_miss_lt N T font text tbl hN i h
  have habs := miss_key_absent N T font text tbl hN hInv h64 hlt i h
  obtain ⟨hbey, hticks, hpath, hdup⟩ := hInv
  have noStale := noStale_of_ticks T tbl h64 hlt hticks
  have hcases := cacheProbe_miss_cases N T font text tbl hN noStale i h
  have hne : ∀ x, tbl x ≠ none → upd tbl i (some ⟨v, font, text, T⟩) x ≠ none := by
    intro x hx
    by_cases hxi : x = i
    · subst hxi
      rw [upd_self]
      intro hc
      cases hc
    · rw [upd_other tbl i _ x hxi]
      exact hx
  refine ⟨?_, ?_, ?_, ?_⟩
  · intro p hp
    rw [upd_other tbl i _ p (by omega)]
    exact hbey p hp
  · intro p e1 hp
    by_cases hpi : p = i
    · subst hpi
      rw [upd_self] at hp
      cases hp
      rfl
    · rw [upd_other tbl i _ p hpi] at hp
      exact hticks p e1 hp
  · intro p e1 hp k hk
    by_cases hpi : p = i
    · subst hpi
      rw [upd_self] at hp
      cases hp
      dsimp only at hk ⊢
      rcases hcases with ⟨j, hjN, hieq, _, hpre⟩ | ⟨hihome, _⟩
      · have hdist : (p + N - homeSlot N font text) % N = j := by
          rw [hieq]
          exact dist_offset N _ j (homeSlot_lt N font text hN) hjN
        rw [hdist] at hk
        exact hne _ (hpre k hk)
      · have hdist : (p + N - homeSlot N font text) % N = 0 := by
          rw [hihome, Nat.add_sub_cancel_left, Nat.mod_self]
        rw [hdist] at hk
        exact absurd hk (Nat.not_lt_zero k)
    · rw [upd_other tbl i _ p hpi] at hp
      exact hne _ (hpath p e1 hp k hk)
  · intro p q e1 e2 hpN hqN hp hq hf ht
    by_cases hpi : p = i <;> by_cases hqi : q = i
    · rw [hpi, hqi]
    · subst hpi
      rw [upd_self] at hp
      cases hp
      rw [upd_other tbl p _ q hqi] at hq
      dsimp only at hf ht
      exact absurd ⟨hf.symm, ht.symm⟩ (habs q e2 hq)
    · subst hqi
      rw [upd_self] at hq
      cases hq
      rw [upd_other tbl q _ p hpi] at hp
      dsimp only at hf ht
      exact absurd ⟨hf, ht⟩ (habs p e1 hp)
    · rw [upd_other tbl i _ p hpi] at hp
      rw [upd_other tbl i _ q hqi] at hq
      exact hdup p q e1 e2 hpN hqN hp hq hf ht

theorem cache_get_or_add_preserves_inv (N T font : Nat) (text : List Nat)
    (produce : Nat → List Nat → Option Nat) (st : CacheState)
    (hN : 0 < N) (h64 : 64 ≤ T) (hlt : T < 2 ^ 32)
    (hp : produce font text ≠ none) (hInv : Inv N T st.table) :
    Inv N T ((cache_get_or_add N produce st font text T).state.table) := by
  cases hres : cacheProbe st.table N font text T with
  | hit i e =>
    obtain ⟨_, htbl, _⟩ := cache_get_or_add_hit_parts N produce st font text T i e hres
    rw [htbl]
    obtain ⟨hsound, _, _⟩ := cacheProbe_hit_sound N T font text st.table i e hres
    exact inv_upd_stamp N T st.table i e
      (cacheProbe_hit_lt N T font text st.table hN i e hres) hsound hInv
  | miss i =>
    cases hpv : produce font text with
    | none => exact absurd hpv hp
    | some v =>
      obtain ⟨_, htbl, _⟩ :=
        cache_get_or_add_miss_succ_parts N produce st font text T i v hres hpv
      rw [htbl]
      exact inv_insert N T font text v st.table hN h64 hlt hInv i hres

theorem dispose_all_table (N : Nat) (st : CacheState) (p : Nat) :
    (cache_dispose_all N st).table p = if p < N then none else st.table p := rfl

theorem inv_dispose_all (N T : Nat) (st : CacheState) (hInv : Inv N T st.table) :
    Inv N T ((cache_dispose_all N st).table) := by
  obtain ⟨hbey, _, _, _⟩ := hInv
  have hnone : ∀ p e, (cache_dispose_all N st).table p = some e → False := by
    intro p e hp
    rw [dispose_all_table] at hp
    by_cases hpN : p < N
    · rw [if_pos hpN] at hp
      cases hp
    · rw [if_neg hpN] at hp
      rw [hbey p (by omega)] at hp
      cases hp
  refine ⟨?_, ?_, ?_, ?_⟩
  · intro p hp
    rw [dispose_all_table, if_neg (by omega)]
    exact hbey p hp
  · intro p e hp
    exact (hnone p e hp).elim
  · intro p e hp
    exact (hnone p e hp).elim
  · intro p q e1 e2 _ _ hp _ _ _
    exact (hnone p e1 hp).elim

theorem inv_empty (N T : Nat) : Inv N T emptyCacheState.table := by
  refine ⟨fun _ _ => rfl, ?_, ?_, ?_⟩
  · intro p e hp
    exact Option.noConfusion hp
  · intro p e hp
    exact Option.noConfusion hp
  · intro p q e1 e2 _ _ hp _ _ _
    exact Option.noConfusion hp

theorem reachableAt_inv (T : Nat) (h64 : 64 ≤ T) (hlt : T < 2 ^ 32) :
    ∀ st, ReachableAt T st →
      Inv TTF_SURFACE_CACHE_SIZE T st.surface.table ∧
      Inv TTF_GETWIDTH_CACHE_SIZE T st.width.table := by
  intro st h
  induction h with
  | init => exact ⟨inv_empty _ T, inv_empty _ T⟩
  | surface render st0 font text hr _ ih =>
    exact ⟨cache_get_or_add_preserves_inv TTF_SURFACE_CACHE_SIZE T font text
      render st0.surface (by decide) h64 hlt hr ih.1, ih.2⟩
  | width measure st0 font text _ ih =>
    exact ⟨ih.1, cache_get_or_add_preserves_inv TTF_GETWIDTH_CACHE_SIZE T font
      text (fun f t => some (measure f t)) st0.width (by decide) h64 hlt
      (fun hc => Option.noConfusion hc) ih.2⟩
  | surfaceDispose st0 _ ih =>
    exact ⟨inv_dispose_all TTF_SURFACE_CACHE_SIZE T st0.surface ih.1, ih.2⟩
  | widthDispose st0 _ ih =>
    exact ⟨ih.1, inv_dispose_all TTF_GETWIDTH_CACHE_SIZE T st0.width ih.2⟩

end TTF

namespace TTF

theorem xor_lt_two_pow (x y n : Nat) (hx : x < 2 ^ n) (hy : y < 2 ^ n) :
    x ^^^ y < 2 ^ n :=
  Nat.bitwise_lt hx hy

theorem ror32_lt (x : Nat) (hx : x < 2 ^ 32) : ror32 x 3 < 2 ^ 32 := by
  show x / 2 ^ 3 + x % 2 ^ 3 * 2 ^ 29 < 2 ^ 32
  omega

theorem ror32_inj (x y : Nat) (hx : x < 2 ^ 32) (hy : y < 2 ^ 32)
    (h : ror32 x 3 = ror32 y 3) : x = y := by
  have h' : x / 2 ^ 3 + x % 2 ^ 3 * 2 ^ 29 = y / 2 ^ 3 + y % 2 ^ 3 * 2 ^ 29 := h
  omega

theorem hash_seed_lt (font : Nat) :
    (font * 23 % 2 ^ 64 ^^^ 0xAAAAAAAA) &&& 0xFFFFFFFF < 2 ^ 32 :=
  lt_of_le_of_lt Nat.and_le_right (by norm_num)

theorem hash_step_lt (h c : Nat) (hh : h < 2 ^ 32) (hc : c < 256) :
    ror32 h 3 ^^^ c * 13 < 2 ^ 32 :=
  xor_lt_two_pow _ _ 32 (ror32_lt h hh) (by omega)

theorem hash_foldl_lt (text : List Nat) :
    ∀ acc, acc < 2 ^ 32 → (∀ c ∈ text, c < 256) →
      text.foldl (fun hash ch => ror32 hash 3 ^^^ ch * 13) acc < 2 ^ 32 := by
  induction text with
  | nil =>
    intro acc hacc _
    simpa using hacc
  | cons c rest ih =>
    intro acc hacc hbytes
    simp only [List.foldl_cons]
    exact ih _ (hash_step_lt acc c hacc (hbytes c (List.mem_cons_self c rest)))
      (fun x hx => hbytes x (List.mem_cons_of_mem c hx))

theorem hash_foldl_inj (text : List Nat) :
    ∀ a b, a < 2 ^ 32 → b < 2 ^ 32 → (∀ c ∈ text, c < 256) →
      text.foldl (fun hash ch => ror32 hash 3 ^^^ ch * 13) a =
        text.foldl (fun hash ch => ror32 hash 3 ^^^ ch * 13) b → a = b := by
  induction text with
  | nil =>
    intro a b _ _ _ h
    simpa using h
  | cons c rest ih =>
    intro a b ha hb hbytes h
    simp only [List.foldl_cons] at h
    have hc : c < 256 := hbytes c (List.mem_cons_self c rest)
    have h1 := ih _ _ (hash_step_lt a c ha hc) (hash_step_lt b c hb hc)
      (fun x hx => hbytes x (List.mem_cons_of_mem c hx)) h
    exact ror32_inj a b ha hb (Nat.xor_left_injective h1)

end TTF

namespace TTF

/-- C8: the key hash is deterministic (equal font and equal text give equal
results), seeds from the font identity (times the odd constant 23, XOR the
fixed pattern 0xAAAAAAAA, masked to 32 bits), folds each text byte by
rotating the accumulator right 3 bits then XORing the byte value times 13,
equals the bare font seed for empty text, stays a 32-bit value on
byte-valued text, and differs for two texts of the same length under the
same font that differ in exactly one byte. -/
theorem C8_hash_spec :
    (∀ f1 f2 t1 t2, f1 = f2 → t1 = t2 →
      ttf_surface_cache_hash f1 t1 = ttf_surface_cache_hash f2 t2) ∧
    (∀ font, ttf_surface_cache_hash font [] =
      (font * 23 % 2 ^ 64 ^^^ 0xAAAAAAAA) &&& 0xFFFFFFFF) ∧
    (∀ font text c, ttf_surface_cache_hash font (text ++ [c]) =
      ror32 (ttf_surface_cache_hash font text) 3 ^^^ c * 13) ∧
    (∀ font text, (∀ c ∈ text, c < 256) →
      ttf_surface_cache_hash font text < 2 ^ 32) ∧
    (∀ font pre suf a b, (∀ c ∈ pre, c < 256) → (∀ c ∈ suf, c < 256) →
      a < 256 → b < 256 → a ≠ b →
      ttf_surface_cache_hash font (pre ++ a :: suf) ≠
        ttf_surface_cache_hash font (pre ++ b :: suf)) := by
  refine ⟨?_, ?_, ?_, ?_, ?_⟩
  · intro f1 f2 t1 t2 h1 h2
    rw [h1, h2]
  · intro font
    rfl
  · intro font text c
    unfold ttf_surface_cache_hash
    rw [List.foldl_append]
    rfl
  · intro font text hb
    exact hash_foldl_lt text _ (hash_seed_lt font) hb
  · intro font pre suf a b hpre hsuf ha hb hab h
    unfold ttf_surface_cache_hash at h
    rw [List.foldl_append, List.foldl_append, List.foldl_cons, List.foldl_cons] at h
    have hH : pre.foldl (fun hash ch => ror32 hash 3 ^^^ ch * 13)
        ((font * 23 % 2 ^ 64 ^^^ 0xAAAAAAAA) &&& 0xFFFFFFFF) < 2 ^ 32 :=
      hash_foldl_lt pre _ (hash_seed_lt font) hpre
    have hstep := hash_foldl_inj suf _ _ (hash_step_lt _ a hH ha)
      (hash_step_lt _ b hH hb) hsuf h
    have hmul : a * 13 = b * 13 := Nat.xor_right_injective hstep
    omega

/-- Witness for C8 at concrete inputs: the texts with the single bytes 1
and 2 hash differently under font 0, and the hash of the byte 1 is a
32-bit value. -/
theorem C8_hash_spec_witness :
    ttf_surface_cache_hash 0 ([] ++ 1 :: []) ≠
      ttf_surface_cache_hash 0 ([] ++ 2 :: []) ∧
    ttf_surface_cache_hash 0 [1] < 2 ^ 32 :=
  ⟨C8_hash_spec.2.2.2.2 0 [] [] 1 2
      (fun c hc => absurd hc (List.not_mem_nil c))
      (fun c hc => absurd hc (List.not_mem_nil c))
      (by omega) (by omega) (by omega),
    C8_hash_spec.2.2.2.1 0 [1]
      (fun c hc => by rw [List.mem_singleton] at hc; omega)⟩

end TTF

namespace TTF

/-- C1: for every lookup in either cache (both get-or-add functions run the
same probeLoop, the surface cache with N = 256, the width cache with
N = 1024), the probe starts at the home slot hash mod N and advances by +1
wrapping to 0, scanning at most N slots (the loop fuel). Writing p for the
slot j steps past home along that sequence, if every earlier probed slot is
occupied, fresh and non-matching (so the probe skips it), then: an empty p
stops the probe as a miss there (the insertion point); a p with identical
font handle and equal text is a hit there, and the call increments the hit
counter, stamps the slot's lastUseTick to the current tick and returns the
stored value; an occupied non-matching p with lastUseTick older than the
current tick minus 64 (in uint32 arithmetic) stops the probe as a miss
there (the eviction point). -/
theorem C1_probe_contract (N : Nat) (produce : Nat → List Nat → Option Nat)
    (st : CacheState) (font : Nat) (text : List Nat) (tick j : Nat)
    (hN : 0 < N) (hj : j < N)
    (hskip : ∀ k, k < j → GoSlot st.table font text tick
      ((homeSlot N font text + k) % N)) :
    (st.table ((homeSlot N font text + j) % N) = none →
      cacheProbe st.table N font text tick =
        .miss ((homeSlot N font text + j) % N)) ∧
    (∀ e, st.table ((homeSlot N font text + j) % N) = some e →
      e.font = font → e.text = text →
      cacheProbe st.table N font text tick =
        .hit ((homeSlot N font text + j) % N) e ∧
      (cache_get_or_add N produce st font text tick).state.hitCount =
        st.hitCount + 1 ∧
      (cache_get_or_add N produce st font text tick).state.table
          ((homeSlot N font text + j) % N) =
        some { e with lastUseTick := tick } ∧
      (cache_get_or_add N produce st font text tick).result = some e.value) ∧
    (∀ e, st.table ((homeSlot N font text + j) % N) = some e →
      ¬(e.font = font ∧ e.text = text) →
      e.lastUseTick < staleThreshold tick →
      cacheProbe st.table N font text tick =
        .miss ((homeSlot N font text + j) % N)) := by
  have hhome : homeSlot N font text < N := homeSlot_lt N font text hN
  have hreach : cacheProbe st.table N font text tick =
      probeLoop st.table N font text tick (N - j)
        ((homeSlot N font text + j) % N) :=
    probeLoop_reaches st.table N font text tick hN j N
      (homeSlot N font text) hhome (Nat.le_of_lt hj) hskip
  obtain ⟨m, hm⟩ : ∃ m, N - j = m + 1 := ⟨N - j - 1, by omega⟩
  rw [hm] at hreach
  refine ⟨?_, ?_, ?_⟩
  · intro hempty
    rw [hreach]
    exact probeLoop_empty_step st.table N font text tick m _ hempty
  · intro e he hf ht
    have hhit : cacheProbe st.table N font text tick =
        .hit ((homeSlot N font text + j) % N) e := by
      rw [hreach]
      exact probeLoop_match_step st.table N font text tick m _ e he ⟨hf, ht⟩
    obtain ⟨hres, htbl, _, hhitc, _, _⟩ :=
      cache_get_or_add_hit_parts N produce st font text tick _ e hhit
    refine ⟨hhit, hhitc, ?_, hres⟩
    rw [htbl, upd_self]
  · intro e he hm' hs
    rw [hreach]
    exact probeLoop_stale_step st.table N font text tick m _ e he hm' hs

/-- Witness for C1 at a concrete input: probing the empty surface table for
font 0 and text consisting of the byte 1 misses at its home slot 88. -/
theorem C1_probe_contract_witness :
    cacheProbe emptyCacheState.table 256 0 [1] 0 = .miss 88 :=
  (C1_probe_contract 256 (fun _ _ => some 0) emptyCacheState 0 [1] 0 0
      (by omega) (by omega)
      (fun k hk => absurd hk (Nat.not_lt_zero k))).1 rfl

theorem cacheProbe_empty_at_home (N font : Nat) (text : List Nat) (tick : Nat)
    (hN : 0 < N) (tbl : Nat → Option CacheEntry)
    (hempty : tbl (homeSlot N font text) = none) :
    cacheProbe tbl N font text tick = .miss (homeSlot N font text) := by
  obtain ⟨m, hm⟩ : ∃ m, N = m + 1 := ⟨N - 1, by omega⟩
  subst hm
  exact probeLoop_empty_step tbl (m + 1) font text tick m
    (homeSlot (m + 1) font text) hempty

theorem cacheProbe_match_at_home (N font : Nat) (text : List Nat) (tick : Nat)
    (hN : 0 < N) (tbl : Nat → Option CacheEntry) (e : CacheEntry)
    (he : tbl (homeSlot N font text) = some e)
    (hm : e.font = font ∧ e.text = text) :
    cacheProbe tbl N font text tick = .hit (homeSlot N font text) e := by
  obtain ⟨m, hm'⟩ : ∃ m, N = m + 1 := ⟨N - 1, by omega⟩
  subst hm'
  exact probeLoop_match_step tbl (m + 1) font text tick m
    (homeSlot (m + 1) font text) e he hm

end TTF

namespace TTF

/-- C2: for every (font, text) pair queried against the initially empty
surface cache, the first GetOrAddSurface call is a miss invoking the render
capability exactly once (storing its surface and bumping the miss counter
from 0 to 1), and an immediately following call at the same tick with the
identical pair is a hit invoking render zero times, returning the same
surface instance and bumping the hit counter. -/
theorem C2_first_miss_then_hit (render : Nat → List Nat → Option Nat)
    (font : Nat) (text : List Nat) (tick s : Nat)
    (hr : render font text = some s) :
    (ttf_surface_cache_get_or_add render emptyCacheState font text tick).produceCalls = 1 ∧
    (ttf_surface_cache_get_or_add render emptyCacheState font text tick).result = some s ∧
    (ttf_surface_cache_get_or_add render emptyCacheState font text tick).state.missCount = 1 ∧
    (ttf_surface_cache_get_or_add render
      (ttf_surface_cache_get_or_add render emptyCacheState font text tick).state
      font text tick).produceCalls = 0 ∧
    (ttf_surface_cache_get_or_add render
      (ttf_surface_cache_get_or_add render emptyCacheState font text tick).state
      font text tick).result = some s ∧
    (ttf_surface_cache_get_or_add render
      (ttf_surface_cache_get_or_add render emptyCacheState font text tick).state
      font text tick).result =
      (ttf_surface_cache_get_or_add render emptyCacheState font text tick).result ∧
    (ttf_surface_cache_get_or_add render
      (ttf_surface_cache_get_or_add render emptyCacheState font text tick).state
      font text tick).state.hitCount =
      (ttf_surface_cache_get_or_add render emptyCacheState font text tick).state.hitCount + 1 := by
  have hN : (0 : Nat) < TTF_SURFACE_CACHE_SIZE := by decide
  have hprobe1 : cacheProbe emptyCacheState.table TTF_SURFACE_CACHE_SIZE font
      text tick = .miss (homeSlot TTF_SURFACE_CACHE_SIZE font text) :=
    cacheProbe_empty_at_home TTF_SURFACE_CACHE_SIZE font text tick hN
      emptyCacheState.table rfl
  obtain ⟨hres1, htbl1, _, _, hmiss1, hcalls1⟩ :=
    cache_get_or_add_miss_succ_parts TTF_SURFACE_CACHE_SIZE render
      emptyCacheState font text tick _ s hprobe1 hr
  have hstored : (ttf_surface_cache_get_or_add render emptyCacheState font
      text tick).state.table (homeSlot TTF_SURFACE_CACHE_SIZE font text) =
      some ⟨s, font, text, tick⟩ := by
    show (cache_get_or_add TTF_SURFACE_CACHE_SIZE render emptyCacheState font
      text tick).state.table (homeSlot TTF_SURFACE_CACHE_SIZE font text) =
      some ⟨s, font, text, tick⟩
    rw [htbl1, upd_self]
  have hprobe2 : cacheProbe (ttf_surface_cache_get_or_add render
      emptyCacheState font text tick).state.table TTF_SURFACE_CACHE_SIZE font
      text tick = .hit (homeSlot TTF_SURFACE_CACHE_SIZE font text)
      ⟨s, font, text, tick⟩ :=
    cacheProbe_match_at_home TTF_SURFACE_CACHE_SIZE font text tick hN _
      ⟨s, font, text, tick⟩ hstored ⟨rfl, rfl⟩
  obtain ⟨hres2, _, _, hhit2, _, hcalls2⟩ :=
    cache_get_or_add_hit_parts TTF_SURFACE_CACHE_SIZE render
      (ttf_surface_cache_get_or_add render emptyCacheState font text tick).state
      font text tick _ ⟨s, font, text, tick⟩ hprobe2
  refine ⟨hcalls1, hres1, ?_, hcalls2, hres2, ?_, hhit2⟩
  · show (cache_get_or_add TTF_SURFACE_CACHE_SIZE render emptyCacheState font
      text tick).state.missCount = 1
    rw [hmiss1]
    decide
  · show (cache_get_or_add TTF_SURFACE_CACHE_SIZE render
      (ttf_surface_cache_get_or_add render emptyCacheState font text tick).state
      font text tick).result =
      (cache_get_or_add TTF_SURFACE_CACHE_SIZE render emptyCacheState font
        text tick).result
    rw [hres2, hres1]

/-- Witness for C2 at a concrete input: render oracle producing surface 7
for font 0 and the text with the single byte 1. -/
theorem C2_first_miss_then_hit_witness :
    (ttf_surface_cache_get_or_add (fun _ _ => some 7) emptyCacheState 0 [1] 5).produceCalls = 1 ∧
    (ttf_surface_cache_get_or_add (fun _ _ => some 7)
      (ttf_surface_cache_get_or_add (fun _ _ => some 7) emptyCacheState 0 [1] 5).state
      0 [1] 5).produceCalls = 0 :=
  ⟨(C2_first_miss_then_hit (fun _ _ => some 7) 0 [1] 5 7 rfl).1,
    (C2_first_miss_then_hit (fun _ _ => some 7) 0 [1] 5 7 rfl).2.2.2.1⟩

end TTF

namespace TTF

theorem probeLoop_miss_after_hole (tbl : Nat → Option CacheEntry) (N font : Nat)
    (text : List Nat) (tick : Nat) :
    ∀ (fuel idx i : Nat), probeLoop tbl N font text tick fuel idx = .miss i →
      probeLoop (upd tbl i none) N font text tick fuel idx = .miss i := by
  intro fuel
  induction fuel with
  | zero =>
    intro idx i h
    rw [probeLoop_zero] at h
    cases h
    exact probeLoop_zero _ _ _ _ _ _
  | succ fuel ih =>
    intro idx i h
    by_cases hxi : idx = i
    · have hupd : upd tbl i none idx = none := by
        rw [hxi]
        exact upd_self tbl i none
      rw [probeLoop_empty_step (upd tbl i none) N font text tick fuel idx hupd, hxi]
    · cases he : tbl idx with
      | none =>
        rw [probeLoop_empty_step tbl N font text tick fuel idx he] at h
        cases h
        exact absurd rfl hxi
      | some e =>
        by_cases hm : e.font = font ∧ e.text = text
        · rw [probeLoop_match_step tbl N font text tick fuel idx e he hm] at h
          cases h
        · by_cases hs : e.lastUseTick < staleThreshold tick
          · rw [probeLoop_stale_step tbl N font text tick fuel idx e he hm hs] at h
            cases h
            exact absurd rfl hxi
          · rw [probeLoop_go_step tbl N font text tick fuel idx e he hm hs] at h
            have he' : upd tbl i none idx = some e := by
              rw [upd_other tbl i none idx hxi]
              exact he
            rw [probeLoop_go_step (upd tbl i none) N font text tick fuel idx e he' hm hs]
            exact ih _ i h

theorem cacheProbe_miss_after_hole (N font : Nat) (text : List Nat)
    (tick : Nat) (tbl : Nat → Option CacheEntry) (i : Nat)
    (h : cacheProbe tbl N font text tick = .miss i) :
    cacheProbe (upd tbl i none) N font text tick = .miss i :=
  probeLoop_miss_after_hole tbl N font text tick N _ i h

/-- C4: when the render capability returns no result on a GetOrAddSurface
miss whose probe stopped at slot i, the call returns the failure indicator
none, the slot i is left empty, the only state change is clearing that
slot (disposal of its previous contents) - in particular the miss counter,
the occupancy counter and the hit counter are unchanged - and a subsequent
call at the same tick with the same key and a succeeding renderer inserts
the key at that same slot and returns the new surface. -/
theorem C4_render_failure (render : Nat → List Nat → Option Nat)
    (st : CacheState) (font : Nat) (text : List Nat) (tick i : Nat)
    (hfail : render font text = none)
    (hmiss : cacheProbe st.table TTF_SURFACE_CACHE_SIZE font text tick = .miss i) :
    (ttf_surface_cache_get_or_add render st font text tick).result = none ∧
    (ttf_surface_cache_get_or_add render st font text tick).produceCalls = 1 ∧
    (ttf_surface_cache_get_or_add render st font text tick).state.table =
      upd st.table i none ∧
    (ttf_surface_cache_get_or_add render st font text tick).state.table i = none ∧
    (ttf_surface_cache_get_or_add render st font text tick).state.count = st.count ∧
    (ttf_surface_cache_get_or_add render st font text tick).state.hitCount = st.hitCount ∧
    (ttf_surface_cache_get_or_add render st font text tick).state.missCount = st.missCount ∧
    (∀ render2 s, render2 font text = some s →
      (ttf_surface_cache_get_or_add render2
        (ttf_surface_cache_get_or_add render st font text tick).state
        font text tick).result = some s ∧
      (ttf_surface_cache_get_or_add render2
        (ttf_surface_cache_get_or_add render st font text tick).state
        font text tick).state.table i = some ⟨s, font, text, tick⟩) := by
  obtain ⟨hres1, htbl1, hcnt1, hhit1, hmiss1, hcalls1⟩ :=
    cache_get_or_add_miss_fail_parts TTF_SURFACE_CACHE_SIZE render st font
      text tick i hmiss hfail
  have hslot : (ttf_surface_cache_get_or_add render st font text tick).state.table i = none := by
    show (cache_get_or_add TTF_SURFACE_CACHE_SIZE render st font text
      tick).state.table i = none
    rw [htbl1, upd_self]
  refine ⟨hres1, hcalls1, htbl1, hslot, hcnt1, hhit1, hmiss1, ?_⟩
  intro render2 s hs
  have hprobe2 : cacheProbe (ttf_surface_cache_get_or_add render st font text
      tick).state.table TTF_SURFACE_CACHE_SIZE font text tick = .miss i := by
    show cacheProbe (cache_get_or_add TTF_SURFACE_CACHE_SIZE render st font
      text tick).state.table TTF_SURFACE_CACHE_SIZE font text tick = .miss i
    rw [htbl1]
    exact cacheProbe_miss_after_hole TTF_SURFACE_CACHE_SIZE font text tick
      st.table i hmiss
  obtain ⟨hres2, htbl2, _, _, _, _⟩ :=
    cache_get_or_add_miss_succ_parts TTF_SURFACE_CACHE_SIZE render2
      (ttf_surface_cache_get_or_add render st font text tick).state font text
      tick i s hprobe2 hs
  refine ⟨hres2, ?_⟩
  show (cache_get_or_add TTF_SURFACE_CACHE_SIZE render2
    (ttf_surface_cache_get_or_add render st font text tick).state font text
    tick).state.table i = some ⟨s, font, text, tick⟩
  rw [htbl2, upd_self]

/-- Witness for C4 at a concrete input: a failing render for font 0 and
the byte-1 text on the empty cache returns none, and retrying with a
succeeding render returns the surface 9. -/
theorem C4_render_failure_witness :
    (ttf_surface_cache_get_or_add (fun _ _ => none) emptyCacheState 0 [1] 0).result = none ∧
    (ttf_surface_cache_get_or_add (fun _ _ => some 9)
      (ttf_surface_cache_get_or_add (fun _ _ => none) emptyCacheState 0 [1] 0).state
      0 [1] 0).result = some 9 :=
  ⟨(C4_render_failure (fun _ _ => none) emptyCacheState 0 [1] 0 88 rfl
      (by decide)).1,
    ((C4_render_failure (fun _ _ => none) emptyCacheState 0 [1] 0 88 rfl
      (by decide)).2.2.2.2.2.2.2 (fun _ _ => some 9) 9 rfl).1⟩

end TTF

namespace TTF

/-- C10: when the localisation service reports a sprite font in use
(UseTrueTypeFont returns false), ttf_toggle_hinting is a complete no-op:
no font hinting flag is changed, neither cache is disposed, and all cache
slots and counters are left unchanged - the whole subsystem state is
returned as it was. -/
theorem C10_toggle_noop (fontSizeCount : Nat) (desiredHinting : Nat → Bool)
    (st : TTFState) :
    ttf_toggle_hinting fontSizeCount false desiredHinting st = st := rfl

/-- C9: the staleness test computes the threshold gCurrentDrawCount - 64
in unsigned 32-bit arithmetic; when the current tick is below 64 the
threshold wraps around to 2 ^ 32 - 64 + tick, so every entry stamped by a
non-wrapped clock (lastUseTick at most the current tick) tests stale no
matter how recently it was used, and a probe whose home slot holds an
occupied non-matching such entry stops right there: the first occupied
non-matching slot on the probe path becomes the eviction target. -/
theorem C9_tick_wrap (tick : Nat) (h : tick < 64) :
    staleThreshold tick = tick + (2 ^ 32 - 64) ∧
    (∀ e : CacheEntry, e.lastUseTick ≤ tick →
      e.lastUseTick < staleThreshold tick) ∧
    (∀ (N : Nat) (tbl : Nat → Option CacheEntry) (font : Nat)
      (text : List Nat) (e : CacheEntry), 0 < N →
      tbl (homeSlot N font text) = some e → e.lastUseTick ≤ tick →
      ¬(e.font = font ∧ e.text = text) →
      cacheProbe tbl N font text tick = .miss (homeSlot N font text)) := by
  refine ⟨staleThreshold_wrap tick h, ?_, ?_⟩
  · intro e he
    rw [staleThreshold_wrap tick h]
    omega
  · intro N tbl font text e hN he hle hm
    obtain ⟨m, hm'⟩ : ∃ m, N = m + 1 := ⟨N - 1, by omega⟩
    subst hm'
    refine probeLoop_stale_step tbl (m + 1) font text tick m _ e he hm ?_
    rw [staleThreshold_wrap tick h]
    omega

/-- Witness for C9 at a concrete input: at tick 0 the slot 88 (home of
font 0, byte-1 text) holds a non-matching entry stamped at tick 0 - used
this very tick - yet the probe evicts there immediately. -/
theorem C9_tick_wrap_witness :
    cacheProbe (upd emptyCacheState.table 88 (some ⟨7, 0, [9], 0⟩))
      256 0 [1] 0 = .miss 88 :=
  (C9_tick_wrap 0 (by omega)).2.2 256
    (upd emptyCacheState.table 88 (some ⟨7, 0, [9], 0⟩)) 0 [1]
    ⟨7, 0, [9], 0⟩ (by omega) (by decide) (by decide) (by decide)

set_option maxRecDepth 4000 in
/-- Counterexample to C6 as stated: with all 256 surface slots occupied,
fresh at tick 100 and non-matching, the probe for font 0, text byte 2
(home slot 79) exhausts its 256 steps and the eviction target is slot 79 -
the home slot, where the index lands after 256 wrapping increments - not
the last probed slot (79 + 256 - 1) mod 256 = 78 the claim names. -/
theorem C6_counterexample :
    cacheProbe fullFreshTable 256 0 [2] 100 = .miss 79 ∧
    (79 + 256 - 1) % 256 = 78 ∧ (79 : Nat) ≠ 78 := by
  refine ⟨by decide, by decide, by decide⟩

/-- C6 amended: for every lookup where all N probed slots are occupied,
fresh and non-matching, the probe terminates after N steps and the
insertion/eviction target is the slot the index reaches after N wrapping
increments - the home slot itself (home + N mod N), not home + N - 1. -/
theorem C6_full_fresh_probe (N font : Nat) (text : List Nat) (tick : Nat)
    (tbl : Nat → Option CacheEntry) (hN : 0 < N)
    (hfull : ∀ k, k < N →
      GoSlot tbl font text tick ((homeSlot N font text + k) % N)) :
    cacheProbe tbl N font text tick = .miss (homeSlot N font text) := by
  have h := probeLoop_reaches tbl N font text tick hN N N
    (homeSlot N font text) (homeSlot_lt N font text hN) (Nat.le_refl N) hfull
  rw [Nat.sub_self, offset_wrap N _ (homeSlot_lt N font text hN),
    probeLoop_zero] at h
  exact h

/-- Witness for C6 amended at a concrete input: the uniformly full fresh
table, font 0, text byte 2 at tick 100 - the probe misses at the home
slot 79. -/
theorem C6_full_fresh_probe_witness :
    cacheProbe fullFreshTable 256 0 [2] 100 = .miss (homeSlot 256 0 [2]) :=
  C6_full_fresh_probe 256 0 [2] 100 fullFreshTable (by omega)
    (fun k hk =>
      ⟨⟨1, 0, [1], 100⟩,
        by
          show (if (homeSlot 256 0 [2] + k) % 256 < 256 then
            some (⟨1, 0, [1], 100⟩ : CacheEntry) else none) =
            some ⟨1, 0, [1], 100⟩
          rw [if_pos (Nat.mod_lt _ (by omega))],
        by decide, by decide⟩)

/-- C7 (evaluating the code at the failing input): disposing the surface
cache that holds exactly one occupied slot (occupancy counter 1) does
reset every slot to empty - the release-and-reset part of the claim holds -
but the occupancy counter is decremented once per loop iteration
regardless of occupancy, ending at 1 - 256 = -255 rather than 0. -/
theorem C7_dispose_all_eval :
    oneEntryState.count = 1 ∧
    oneEntryState.table 88 = some ⟨5, 0, [1], 70⟩ ∧
    (ttf_surface_cache_dispose_all oneEntryState).count = -255 ∧
    (ttf_surface_cache_dispose_all oneEntryState).count ≠ 0 ∧
    (∀ i, (ttf_surface_cache_dispose_all oneEntryState).table i = none) := by
  refine ⟨by decide, by decide, by decide, by decide, ?_⟩
  intro i
  show (if i < TTF_SURFACE_CACHE_SIZE then none else oneEntryState.table i) = none
  by_cases h : i < TTF_SURFACE_CACHE_SIZE
  · rw [if_pos h]
  · rw [if_neg h]
    have h256 : ¬ i < 256 := h
    have hprobe : cacheProbe emptyCacheState.table TTF_SURFACE_CACHE_SIZE
        0 [1] 70 = .miss 88 := by decide
    obtain ⟨_, htbl, _⟩ := cache_get_or_add_miss_succ_parts
      TTF_SURFACE_CACHE_SIZE (fun _ _ => some 5) emptyCacheState 0 [1] 70 88 5
      hprobe rfl
    show (cache_get_or_add TTF_SURFACE_CACHE_SIZE (fun _ _ => some 5)
      emptyCacheState 0 [1] 70).state.table i = none
    rw [htbl, upd_other _ _ _ i (by omega)]
    rfl

end TTF

namespace TTF

theorem toggle_hinting_width (fontSizeCount : Nat) (useTTF : Bool)
    (desiredHinting : Nat → Bool) (st : TTFState) :
    (ttf_toggle_hinting fontSizeCount useTTF desiredHinting st).width =
      st.width := by
  unfold ttf_toggle_hinting
  split
  · rfl
  · dsimp only
    split
    · rfl
    · rfl

theorem toggle_hinting_surface_table (fontSizeCount : Nat)
    (desiredHinting : Nat → Bool) (st : TTFState)
    (hcount : st.surface.count ≠ 0) :
    (ttf_toggle_hinting fontSizeCount true desiredHinting st).surface.table =
      (ttf_surface_cache_dispose_all st.surface).table := by
  unfold ttf_toggle_hinting
  split
  · next hfalse => exact absurd hfalse (by decide)
  · dsimp only
    split
    · rfl
    · next hc => exact absurd hcount hc

/-- C5 amended: for every state in which the localisation service reports
TrueType in use and the surface cache's occupancy counter is non-zero, and
every key cached in both tables (a probe hit in each), after a hinting
toggle the next GetOrAddSurface for that key is a fresh miss: the surface
table was disposed whole, the probe misses at the key's home slot and the
render capability is invoked once. The next GetOrAddWidth for that key is
still a hit: the toggle leaves the width cache untouched, so the call
invokes no measurement and returns the cached width. (As stated the claim
is false: a state with a zero surface counter but live surface entries
skips the disposal; see the counterexample.) -/
theorem C5_toggle_invalidation (fontSizeCount : Nat)
    (desiredHinting : Nat → Bool) (st : TTFState) (font : Nat)
    (text : List Nat) (tick : Nat) (measure : Nat → List Nat → Nat)
    (render : Nat → List Nat → Option Nat) (iS iW : Nat) (eS eW : CacheEntry)
    (hcount : st.surface.count ≠ 0)
    (hS : cacheProbe st.surface.table TTF_SURFACE_CACHE_SIZE font text tick =
      .hit iS eS)
    (hW : cacheProbe st.width.table TTF_GETWIDTH_CACHE_SIZE font text tick =
      .hit iW eW) :
    cacheProbe (ttf_toggle_hinting fontSizeCount true desiredHinting
        st).surface.table TTF_SURFACE_CACHE_SIZE font text tick =
      .miss (homeSlot TTF_SURFACE_CACHE_SIZE font text) ∧
    (ttf_surface_cache_get_or_add render
      (ttf_toggle_hinting fontSizeCount true desiredHinting st).surface
      font text tick).produceCalls = 1 ∧
    (ttf_toggle_hinting fontSizeCount true desiredHinting st).width =
      st.width ∧
    (ttf_getwidth_cache_get_or_add measure
      (ttf_toggle_hinting fontSizeCount true desiredHinting st).width
      font text tick).produceCalls = 0 ∧
    (ttf_getwidth_cache_get_or_add measure
      (ttf_toggle_hinting fontSizeCount true desiredHinting st).width
      font text tick).result = some eW.value := by
  have hN : (0 : Nat) < TTF_SURFACE_CACHE_SIZE := by decide
  have hwidth : (ttf_toggle_hinting fontSizeCount true desiredHinting
      st).width = st.width :=
    toggle_hinting_width fontSizeCount true desiredHinting st
  have hempty : (ttf_toggle_hinting fontSizeCount true desiredHinting
      st).surface.table (homeSlot TTF_SURFACE_CACHE_SIZE font text) = none := by
    rw [toggle_hinting_surface_table fontSizeCount desiredHinting st hcount]
    show (if homeSlot TTF_SURFACE_CACHE_SIZE font text < TTF_SURFACE_CACHE_SIZE
      then none
      else st.surface.table (homeSlot TTF_SURFACE_CACHE_SIZE font text)) = none
    rw [if_pos (homeSlot_lt TTF_SURFACE_CACHE_SIZE font text hN)]
  have hmiss := cacheProbe_empty_at_home TTF_SURFACE_CACHE_SIZE font text tick
    hN _ hempty
  have hcalls1 : (ttf_surface_cache_get_or_add render
      (ttf_toggle_hinting fontSizeCount true desiredHinting st).surface
      font text tick).produceCalls = 1 := by
    cases hr : render font text with
    | none =>
      exact (cache_get_or_add_miss_fail_parts TTF_SURFACE_CACHE_SIZE render _
        font text tick _ hmiss hr).2.2.2.2.2
    | some v =>
      exact (cache_get_or_add_miss_succ_parts TTF_SURFACE_CACHE_SIZE render _
        font text tick _ v hmiss hr).2.2.2.2.2
  obtain ⟨hres2, _, _, _, _, hcalls2⟩ :=
    cache_get_or_add_hit_parts TTF_GETWIDTH_CACHE_SIZE
      (fun f t => some (measure f t)) st.width font text tick iW eW hW
  refine ⟨hmiss, hcalls1, hwidth, ?_, ?_⟩
  · rw [hwidth]
    exact hcalls2
  · rw [hwidth]
    exact hres2

/-- Witness for C5 amended at a concrete input: bothCachedState holds the
key (font 0, byte 1) in both tables with surface counter 1; after the
toggle, the surface probe misses at home slot 88 and the width call still
returns the cached width 12. -/
theorem C5_toggle_invalidation_witness :
    cacheProbe (ttf_toggle_hinting 4 true (fun _ => true)
        bothCachedState).surface.table TTF_SURFACE_CACHE_SIZE 0 [1] 70 =
      .miss (homeSlot TTF_SURFACE_CACHE_SIZE 0 [1]) ∧
    (ttf_getwidth_cache_get_or_add (fun _ _ => 99)
      (ttf_toggle_hinting 4 true (fun _ => true) bothCachedState).width
      0 [1] 70).result = some 12 :=
  ⟨(C5_toggle_invalidation 4 (fun _ => true) bothCachedState 0 [1] 70
      (fun _ _ => 99) (fun _ _ => some 9) 88 344 ⟨7, 0, [1], 70⟩
      ⟨12, 0, [1], 70⟩ (by decide) (by decide) (by decide)).1,
    (C5_toggle_invalidation 4 (fun _ => true) bothCachedState 0 [1] 70
      (fun _ _ => 99) (fun _ _ => some 9) 88 344 ⟨7, 0, [1], 70⟩
      ⟨12, 0, [1], 70⟩ (by decide) (by decide) (by decide)).2.2.2.2⟩

/-- Counterexample to C5 as stated: in hintingToggleState the localisation
service reports TrueType in use and the key (font 0, byte 1) is cached in
both tables, yet because the surface occupancy counter is 0 the toggle
skips the disposal, and the next GetOrAddSurface for the key is a hit
invoking render zero times and returning the cached surface 7 - not a
fresh miss. -/
theorem C5_counterexample :
    cacheProbe hintingToggleState.surface.table 256 0 [1] 70 =
      .hit 88 ⟨7, 0, [1], 70⟩ ∧
    cacheProbe hintingToggleState.width.table 1024 0 [1] 70 =
      .hit 344 ⟨12, 0, [1], 70⟩ ∧
    (ttf_surface_cache_get_or_add (fun _ _ => some 9)
      (ttf_toggle_hinting 4 true (fun _ => true) hintingToggleState).surface
      0 [1] 70).produceCalls = 0 ∧
    (ttf_surface_cache_get_or_add (fun _ _ => some 9)
      (ttf_toggle_hinting 4 true (fun _ => true) hintingToggleState).surface
      0 [1] 70).result = some 7 :=
  ⟨by decide, by decide, by decide, by decide⟩

end TTF

namespace TTF

/-- Counterexample to C3 as stated: dupKeyState is reachable from startup
by three GetOrAddSurface operations, yet its surface table holds the key
(font 0, text bytes 2 117) in the two distinct simultaneously occupied
slots 88 and 89. -/
theorem C3_counterexample :
    Reachable dupKeyState ∧
    dupKeyState.surface.table 88 = some ⟨1, 0, [2, 117], 129⟩ ∧
    dupKeyState.surface.table 89 = some ⟨1, 0, [2, 117], 64⟩ ∧
    (88 : Nat) ≠ 89 :=
  ⟨Reachable.surface constRender _ 0 [2, 117] 129
      (Reachable.surface constRender _ 0 [2, 117] 64
        (Reachable.surface constRender _ 0 [1] 64 Reachable.init)),
    by decide, by decide, by decide⟩

/-- C3 amended: in every state reachable from startup by sequences of
GetOrAddSurface / GetOrAddWidth / DisposeAll operations that all run at a
single common tick T with 64 <= T < 2 ^ 32 and in which every surface
render succeeds, no two simultaneously occupied slots of the same table
hold equal (font, text) key pairs. (As stated, over arbitrary ticks, the
claim is false: a staleness eviction can re-insert a key whose earlier
copy still occupies a later slot of its probe path; see the
counterexample.) -/
theorem C3_no_dup_keys (T : Nat) (st : TTFState) (h64 : 64 ≤ T)
    (hlt : T < 2 ^ 32) (hreach : ReachableAt T st) :
    NoDupKeys TTF_SURFACE_CACHE_SIZE st.surface.table ∧
    NoDupKeys TTF_GETWIDTH_CACHE_SIZE st.width.table := by
  obtain ⟨hS, hW⟩ := reachableAt_inv T h64 hlt st hreach
  exact ⟨hS.2.2.2, hW.2.2.2⟩

/-- Witness for C3 amended at a concrete input: one successful surface
insertion at tick 64 from startup; the inserted slot 88 holds the key and
the uniqueness conclusion instantiated at that slot closes. -/
theorem C3_no_dup_keys_witness :
    (surfaceStep constRender ttfInitialState 0 [1] 64).surface.table 88 =
      some ⟨1, 0, [1], 64⟩ ∧ (88 : Nat) = 88 :=
  ⟨by decide,
    (C3_no_dup_keys 64 (surfaceStep constRender ttfInitialState 0 [1] 64)
        (by omega) (by norm_num)
        (ReachableAt.surface constRender ttfInitialState 0 [1] (by decide)
          ReachableAt.init)).1
      88 88 ⟨1, 0, [1], 64⟩ ⟨1, 0, [1], 64⟩ (by decide) (by decide)
      (by decide) (by decide) rfl rfl⟩

end TTF
